import Mathlib

set_option maxHeartbeats 1000000

/-
Verification of the per-chain state machine in
src/backend/telemetry_core/src/state/chain.rs.

The Chain structure and its operations (add_node, remove_node, update_node,
handle_block, update_stale_nodes, regenerate_stats_if_necessary) are translated
directly from the Rust source. The leaf collaborators that live outside this
file's source tree (Node, the DenseMap slot collection, the MostSeen label
tracker, the NumStats rolling window, the ChainStatsCollator and the payload
type) are modelled from the specification's collaborator contracts; each such
definition carries a doc comment saying so.

Machine integers are modelled as Nat. Rust's u64 saturating_sub is truncated
Nat subtraction. The one unchecked u64 subtraction in the source
(the staleness threshold, chain.rs line 304) is modelled as wrapping
subtraction modulo 2 ^ 64, which is what release-mode Rust computes.
-/

/-- Block type from the source: a height and a hash. The fixed-size hash is
modelled as a natural number. -/
structure Block where
  height : Nat
  hash : Nat
deriving DecidableEq

/-- Block::zero. -/
def Block.zero : Block := ⟨0, 0⟩

abbrev Label := String
abbrev Timestamp := Nat
abbrev ChainNodeId := Nat

/-- STALE_TIMEOUT from chain.rs: two minutes, in milliseconds. -/
def STALE_TIMEOUT : Nat := 2 * 60 * 1000

/-- STATS_UPDATE_INTERVAL from chain.rs: five seconds, expressed in
milliseconds. -/
def STATS_UPDATE_INTERVAL : Nat := 5000

/-- Unchecked u64 subtraction as computed by release-mode Rust: wraps
modulo 2 ^ 64. -/
def u64_sub (a b : Nat) : Nat := (a + (2 ^ 64 - b % 2 ^ 64)) % 2 ^ 64

/-- The staleness threshold computed at the top of Chain::update_stale_nodes
(chain.rs line 304): the source writes the unchecked `now - STALE_TIMEOUT`. -/
def stale_threshold (now : Timestamp) : Nat := u64_sub now STALE_TIMEOUT

/-- Modelled from the spec: the node detail snapshot (self-reported chain
label, node name, validator identity). The repository's Node type is an
external collaborator, not part of the source file under verification. -/
structure NodeDetails where
  chain : Label
  name : String
  validator : Option String
deriving DecidableEq

/-- Modelled from the spec: hardware benchmark scores held by a node. -/
structure NodeHwBench where
  cpu_hashrate_score : Nat
  memory_memcpy_score : Nat
  disk_sequential_write_score : Nat
  disk_random_write_score : Nat
deriving DecidableEq

/-- Modelled from the spec: the per-import record returned by the node's
detail finalizer, carrying the import instant and the propagation time. -/
structure BlockDetails where
  block_timestamp : Timestamp
  propagation_time : Option Nat
deriving DecidableEq

/-- Modelled from the spec: per-node mutable state: detail snapshot, best and
finalized blocks, the arrival instant of the best block, the staleness mark,
the stored benchmark, and the periodic-sample fields. -/
structure Node where
  details : NodeDetails
  best : Block
  best_timestamp : Timestamp
  finalized : Block
  stale : Bool
  hwbench : Option NodeHwBench
  hardware : Nat
  node_stats : Nat
  io_state : Nat
deriving DecidableEq

/-- Modelled from the spec: monotonic best-block updater; true iff the
candidate strictly advances the node's stored best. A node that advances
again is no longer stale. -/
def Node.update_block (n : Node) (b : Block) : Bool × Node :=
  if n.best.height < b.height then (true, { n with best := b, stale := false })
  else (false, n)

/-- Modelled from the spec: the detail finalizer taking (now, propagation
time); it records the import and refreshes the node's best-block arrival
instant, yielding the emittable record. -/
def Node.update_details (n : Node) (now : Timestamp) (propagation_time : Option Nat) :
    Option BlockDetails × Node :=
  (some ⟨now, propagation_time⟩, { n with best_timestamp := now })

/-- Modelled from the spec: the staleness predicate evaluated against a
threshold instant; the node is stale iff its best block has not advanced
since the threshold, and the node is marked accordingly. -/
def Node.update_stale (n : Node) (threshold : Nat) : Bool × Node :=
  if threshold < n.best_timestamp then (false, { n with stale := false })
  else (true, { n with stale := true })

/-- Modelled from the spec: the finalized updater, returning the new value
exactly when the candidate advances the node's own finalized height. -/
def Node.update_finalized (n : Node) (b : Block) : Option Block × Node :=
  if n.finalized.height < b.height then (some b, { n with finalized := b })
  else (none, n)

/-- Modelled from the spec: validator-id setter; true iff the id changed. -/
def Node.set_validator_address (n : Node) (addr : String) : Bool × Node :=
  if n.details.validator = some addr then (false, n)
  else (true, { n with details := { n.details with validator := some addr } })

/-- Modelled from the spec: benchmark replacer; stores the new benchmark and
returns the previous one. -/
def Node.update_hwbench (n : Node) (hb : NodeHwBench) : Option NodeHwBench × Node :=
  (n.hwbench, { n with hwbench := some hb })

/-- Modelled from the spec: the periodic hardware/stat/IO sample carried by a
SystemInterval payload, optionally bearing best and finalized blocks. -/
structure SystemInterval where
  best : Option Block
  finalized : Option Block
  hardware : Option Nat
  node_stats : Option Nat
  io_state : Option Nat
deriving DecidableEq

/-- Modelled from the spec: hardware updater; true iff the sample changed the
stored value. -/
def Node.update_hardware (n : Node) (iv : SystemInterval) : Bool × Node :=
  match iv.hardware with
  | some h => if h = n.hardware then (false, n) else (true, { n with hardware := h })
  | none => (false, n)

/-- Modelled from the spec: stats updater; returns the changed value, if any. -/
def Node.update_stats (n : Node) (iv : SystemInterval) : Option Nat × Node :=
  match iv.node_stats with
  | some s => if s = n.node_stats then (none, n) else (some s, { n with node_stats := s })
  | none => (none, n)

/-- Modelled from the spec: IO updater; returns the changed value, if any. -/
def Node.update_io_state (n : Node) (iv : SystemInterval) : Option Nat × Node :=
  match iv.io_state with
  | some s => if s = n.io_state then (none, n) else (some s, { n with io_state := s })
  | none => (none, n)

/-- Modelled from the spec: the hardware benchmark report payload. -/
structure HwBenchPayload where
  cpu_hashrate_score : Nat
  memory_memcpy_score : Nat
  disk_sequential_write_score : Nat
  disk_random_write_score : Nat
deriving DecidableEq

/-- Modelled from the spec: the telemetry payload variants dispatched by
Chain::update_node. -/
inductive Payload where
  | SystemInterval (interval : SystemInterval)
  | BlockImport (block : Block)
  | NotifyFinalized (block : Block)
  | AfgAuthoritySet (authority_id : String)
  | HwBench (hwbench : HwBenchPayload)
  | Other
deriving DecidableEq

/-- Modelled from the spec: the best-block candidate carried by a payload. -/
def Payload.best_block : Payload → Option Block
  | .SystemInterval iv => iv.best
  | .BlockImport b => some b
  | _ => none

/-- Modelled from the spec: the finalized-block candidate carried by a
payload. -/
def Payload.finalized_block : Payload → Option Block
  | .SystemInterval iv => iv.finalized
  | .NotifyFinalized b => some b
  | _ => none

/-- CounterValue from the source: the fold direction for the stats collator. -/
inductive CounterValue where
  | Increment
  | Decrement
deriving DecidableEq

/-- Modelled from the spec: one increment step of an occurrence counter:
bump the key's count, appending a fresh entry for an unseen key. -/
def bumpCount {α : Type} [DecidableEq α] : List (α × Nat) → α → List (α × Nat)
  | [], k => [(k, 1)]
  | (k0, c) :: t, k =>
    if k0 = k then (k0, c + 1) :: t else (k0, c) :: bumpCount t k

/-- Modelled from the spec: one decrement step of an occurrence counter:
lower the key's count, dropping the entry when it reaches zero; decrementing
an absent key is a no-op. -/
def debumpCount {α : Type} [DecidableEq α] : List (α × Nat) → α → List (α × Nat)
  | [], _ => []
  | (k0, c) :: t, k =>
    if k0 = k then (if c ≤ 1 then t else (k0, c - 1) :: t)
    else (k0, c) :: debumpCount t k

/-- Modelled from the spec: apply a fold direction to an occurrence counter. -/
def applyCount {α : Type} [DecidableEq α] (l : List (α × Nat)) (k : α) :
    CounterValue → List (α × Nat)
  | .Increment => bumpCount l k
  | .Decrement => debumpCount l k

/-- Modelled from the spec: the incremental stats collator: occurrence counts
of node details and of hardware benchmarks, folded in and out. -/
structure ChainStatsCollator where
  detail_counts : List (NodeDetails × Nat)
  bench_counts : List (NodeHwBench × Nat)
deriving DecidableEq

/-- Modelled from the spec: benchmark fold of the collator; folding an absent
benchmark is a no-op. -/
def ChainStatsCollator.update_hwbench (s : ChainStatsCollator)
    (hb : Option NodeHwBench) (v : CounterValue) : ChainStatsCollator :=
  match hb with
  | none => s
  | some b => { s with bench_counts := applyCount s.bench_counts b v }

/-- Modelled from the spec: fold a node's detail and optional benchmark in or
out of the collator. -/
def ChainStatsCollator.add_or_remove_node (s : ChainStatsCollator)
    (details : NodeDetails) (hb : Option NodeHwBench) (v : CounterValue) :
    ChainStatsCollator :=
  let s1 := { s with detail_counts := applyCount s.detail_counts details v }
  ChainStatsCollator.update_hwbench s1 hb v

/-- Modelled from the spec: the equality-comparable stats snapshot produced by
the collator's generate(). -/
structure ChainStats where
  detail_counts : List (NodeDetails × Nat)
  bench_counts : List (NodeHwBench × Nat)
deriving DecidableEq

/-- Modelled from the spec: generate() exposes the collator's current counts
as a comparable snapshot. -/
def ChainStatsCollator.generate (s : ChainStatsCollator) : ChainStats :=
  ⟨s.detail_counts, s.bench_counts⟩

/-- The default (empty) stats snapshot. -/
def ChainStats.empty : ChainStats := ⟨[], []⟩

/-- Modelled from the spec: the majority-label tracker: a multiset of
occurrence counts; the current majority is the first label attaining the
maximal count. -/
structure MostSeen where
  counts : List (Label × Nat)
deriving DecidableEq

/-- Helper for the majority computation: fold keeping the first entry that
strictly exceeds the running maximum. -/
def MostSeen.bestAux : List (Label × Nat) → Label × Nat → Label × Nat
  | [], acc => acc
  | (k, c) :: t, acc =>
    if acc.2 < c then MostSeen.bestAux t (k, c) else MostSeen.bestAux t acc

/-- Modelled from the spec: the current majority label. -/
def MostSeen.best (m : MostSeen) : Label := (MostSeen.bestAux m.counts ("", 0)).1

/-- Modelled from the spec: record one more occurrence of a label; the Bool
reports whether the majority label changed. -/
def MostSeen.insert (m : MostSeen) (l : Label) : Bool × MostSeen :=
  let m2 : MostSeen := ⟨bumpCount m.counts l⟩
  (decide (MostSeen.best m ≠ MostSeen.best m2), m2)

/-- Modelled from the spec: remove one occurrence of a label; the Bool
reports whether the majority label changed. -/
def MostSeen.remove (m : MostSeen) (l : Label) : Bool × MostSeen :=
  let m2 : MostSeen := ⟨debumpCount m.counts l⟩
  (decide (MostSeen.best m ≠ MostSeen.best m2), m2)

/-- MostSeen::default: the empty tracker. -/
def MostSeen.default : MostSeen := ⟨[]⟩

/-- Modelled from the spec: the fixed-capacity rolling window with a mean. -/
structure NumStats where
  capacity : Nat
  values : List Nat
deriving DecidableEq

/-- NumStats::new. -/
def NumStats.new (capacity : Nat) : NumStats := ⟨capacity, []⟩

/-- Modelled from the spec: push a value, evicting the oldest beyond the
capacity. -/
def NumStats.push (s : NumStats) (v : Nat) : NumStats :=
  let vs := s.values ++ [v]
  ⟨s.capacity, vs.drop (vs.length - s.capacity)⟩

/-- Modelled from the spec: the integer mean of the stored values. -/
def NumStats.average (s : NumStats) : Nat :=
  s.values.foldl (· + ·) 0 / s.values.length

/-- Modelled from the spec: clear the window. -/
def NumStats.reset (s : NumStats) : NumStats := ⟨s.capacity, []⟩

/-- Modelled from the spec: insertion into the id-indexed slot collection:
fill the first free slot, or append; returns the assigned slot index. -/
def dmAdd (n : Node) : List (Option Node) → Nat × List (Option Node)
  | [] => (0, [some n])
  | none :: t => (0, some n :: t)
  | some m :: t =>
    let r := dmAdd n t
    (r.1 + 1, some m :: r.2)

/-- Modelled from the spec: removal from the slot collection: free the slot
and return the held node; removing an absent id changes nothing. -/
def dmRemove : List (Option Node) → Nat → Option Node × List (Option Node)
  | [], _ => (none, [])
  | x :: t, 0 => (x, none :: t)
  | x :: t, i + 1 =>
    let r := dmRemove t i
    (r.1, x :: r.2)

/-- Modelled from the spec: lookup by slot index. -/
def dmGet : List (Option Node) → Nat → Option Node
  | [], _ => none
  | x :: _, 0 => x
  | _ :: t, i + 1 => dmGet t i

/-- Modelled from the spec: in-place mutation of a held slot. -/
def dmSet : List (Option Node) → Nat → Node → List (Option Node)
  | [], _, _ => []
  | _ :: t, 0, n => some n :: t
  | x :: t, i + 1, n => x :: dmSet t i n

/-- Modelled from the spec: number of held nodes. -/
def dmLen : List (Option Node) → Nat
  | [] => 0
  | none :: t => dmLen t
  | some _ :: t => dmLen t + 1

/-- Feed (delta) messages pushed by Chain operations, in push order. -/
inductive FeedMessage where
  | Hardware (nid : ChainNodeId) (hardware : Nat)
  | NodeStatsUpdate (nid : ChainNodeId) (node_stats : Nat)
  | NodeIOUpdate (nid : ChainNodeId) (io_state : Nat)
  | AddedNode (nid : ChainNodeId) (node : Node) (expose_node_details : Bool)
  | FinalizedBlock (nid : ChainNodeId) (height : Nat) (hash : Nat)
  | BestFinalized (height : Nat) (hash : Nat)
  | BestBlock (height : Nat) (block_timestamp : Timestamp) (average_block_time : Option Nat)
  | ImportedBlock (nid : ChainNodeId) (details : BlockDetails)
  | StaleNode (nid : ChainNodeId)
  | ChainStatsUpdate (stats : ChainStats)
deriving DecidableEq

/-- The Chain state, field for field from chain.rs. -/
structure Chain where
  labels : MostSeen
  nodes : List (Option Node)
  best : Block
  finalized : Block
  block_times : NumStats
  average_block_time : Option Nat
  timestamp : Option Timestamp
  genesis_hash : Nat
  max_nodes : Nat
  stats_collator : ChainStatsCollator
  stats : ChainStats
  stats_last_regenerated : Nat
deriving DecidableEq

/-- Chain::new. The Rust constructor reads Instant::now() for
stats_last_regenerated; the creation instant is passed explicitly here. -/
def Chain.new (genesis_hash : Nat) (max_nodes : Nat) (created_at : Nat) : Chain :=
  { labels := MostSeen.default
    nodes := []
    best := Block.zero
    finalized := Block.zero
    block_times := NumStats.new 50
    average_block_time := none
    timestamp := none
    genesis_hash := genesis_hash
    max_nodes := max_nodes
    stats_collator := ⟨[], []⟩
    stats := ChainStats.empty
    stats_last_regenerated := created_at }

/-- Chain::node_count. -/
def Chain.node_count (c : Chain) : Nat := dmLen c.nodes

/-- Chain::is_overquota. -/
def Chain.is_overquota (c : Chain) : Bool := decide (c.max_nodes ≤ dmLen c.nodes)

/-- AddNodeResult from the source. -/
inductive AddNodeResult where
  | Overquota
  | Added (id : ChainNodeId) (chain_renamed : Bool)
deriving DecidableEq

/-- RemoveNodeResult from the source. -/
structure RemoveNodeResult where
  chain_renamed : Bool
deriving DecidableEq

/-- Chain::add_node. -/
def Chain.add_node (c : Chain) (node : Node) : AddNodeResult × Chain :=
  if c.is_overquota then (AddNodeResult.Overquota, c)
  else
    let details := node.details
    let sc := ChainStatsCollator.add_or_remove_node c.stats_collator details none
      CounterValue.Increment
    let lr := MostSeen.insert c.labels details.chain
    let ar := dmAdd node c.nodes
    (AddNodeResult.Added ar.1 lr.1,
     { c with stats_collator := sc, labels := lr.2, nodes := ar.2 })

/-- Chain::remove_node. -/
def Chain.remove_node (c : Chain) (node_id : ChainNodeId) : RemoveNodeResult × Chain :=
  match dmRemove c.nodes node_id with
  | (none, _) => (⟨false⟩, c)
  | (some node, nodes2) =>
    let details := node.details
    let sc := ChainStatsCollator.add_or_remove_node c.stats_collator details
      node.hwbench CounterValue.Decrement
    let lr := MostSeen.remove c.labels node.details.chain
    (⟨lr.1⟩, { c with nodes := nodes2, stats_collator := sc, labels := lr.2 })

/-- Intermediate state of the node scan inside Chain::update_stale_nodes. -/
structure ScanResult where
  nodes : List (Option Node)
  best : Block
  finalized : Block
  timestamp : Option Timestamp
  msgs : List FeedMessage
deriving DecidableEq

/-- The node scan of Chain::update_stale_nodes: walk the slots in id order,
marking staleness; stale nodes emit a per-node stale delta, fresh nodes feed
the running maxima of best and finalized heights, the first node attaining
the running best maximum contributing its arrival instant (the source's
comparisons are strict). -/
def staleScan (threshold : Nat) : Nat → Block → Block → Option Timestamp →
    List (Option Node) → ScanResult
  | _, best, finalized, ts, [] => ⟨[], best, finalized, ts, []⟩
  | idx, best, finalized, ts, none :: t =>
    let r := staleScan threshold (idx + 1) best finalized ts t
    ⟨none :: r.nodes, r.best, r.finalized, r.timestamp, r.msgs⟩
  | idx, best, finalized, ts, some nd :: t =>
    match Node.update_stale nd threshold with
    | (true, nd2) =>
      let r := staleScan threshold (idx + 1) best finalized ts t
      ⟨some nd2 :: r.nodes, r.best, r.finalized, r.timestamp,
       FeedMessage.StaleNode idx :: r.msgs⟩
    | (false, nd2) =>
      let best2 := if best.height < nd2.best.height then nd2.best else best
      let ts2 := if best.height < nd2.best.height then some nd2.best_timestamp else ts
      let fin2 := if finalized.height < nd2.finalized.height then nd2.finalized else finalized
      let r := staleScan threshold (idx + 1) best2 fin2 ts2 t
      ⟨some nd2 :: r.nodes, r.best, r.finalized, r.timestamp, r.msgs⟩

/-- Chain::update_stale_nodes. The threshold is the source's unchecked u64
subtraction; the sweep returns early when no best-block arrival was ever
recorded or the recorded instant is above the threshold. -/
def Chain.update_stale_nodes (c : Chain) (now : Timestamp) : Chain × List FeedMessage :=
  let threshold := stale_threshold now
  match c.timestamp with
  | none => (c, [])
  | some ts =>
    if threshold < ts then (c, [])
    else
      let r := staleScan threshold 0 Block.zero Block.zero none c.nodes
      if c.best.height ≠ 0 ∨ c.finalized.height ≠ 0 then
        ({ c with nodes := r.nodes, best := r.best, finalized := r.finalized,
                  block_times := c.block_times.reset, timestamp := r.timestamp },
         r.msgs ++ [FeedMessage.BestBlock r.best.height (r.timestamp.getD now) none,
                    FeedMessage.BestFinalized r.finalized.height r.finalized.hash])
      else
        ({ c with nodes := r.nodes }, r.msgs)

/-- Chain::regenerate_stats_if_necessary. The Rust code reads Instant::now();
the current instant is passed explicitly. -/
def Chain.regenerate_stats_if_necessary (c : Chain) (inow : Nat) :
    Chain × List FeedMessage :=
  let elapsed := inow - c.stats_last_regenerated
  if elapsed < STATS_UPDATE_INTERVAL then (c, [])
  else
    let new_stats := c.stats_collator.generate
    if new_stats ≠ c.stats then
      ({ c with stats_last_regenerated := inow, stats := new_stats },
       [FeedMessage.ChainStatsUpdate new_stats])
    else
      ({ c with stats_last_regenerated := inow }, [])

/-- The tail of Chain::handle_block, after the stale sweep and the stats gate:
the per-node monotonic update, the chain-best adoption and the
propagation-time computation. -/
def Chain.handle_block_core (c : Chain) (block : Block) (nid : ChainNodeId)
    (now : Timestamp) : Chain × List FeedMessage :=
  match dmGet c.nodes nid with
  | none => (c, [])
  | some node =>
    let ub := Node.update_block node block
    if ub.1 then
      let step :
          Chain × List FeedMessage × Option Nat :=
        if c.best.height < block.height then
          let p :
              NumStats × Option Nat :=
            match c.timestamp with
            | some ts =>
              let bt := c.block_times.push (now - ts)
              (bt, some bt.average)
            | none => (c.block_times, c.average_block_time)
          ({ c with best := block, block_times := p.1, average_block_time := p.2,
                    timestamp := some now },
           [FeedMessage.BestBlock block.height now p.2], some 0)
        else if block.height = c.best.height then
          match c.timestamp with
          | some ts => (c, [], some (now - ts))
          | none => (c, [], none)
        else (c, [], none)
      let ud := Node.update_details ub.2 now step.2.2
      let msgs2 :=
        match ud.1 with
        | some details => [FeedMessage.ImportedBlock nid details]
        | none => []
      ({ step.1 with nodes := dmSet step.1.nodes nid ud.2 }, step.2.1 ++ msgs2)
    else
      ({ c with nodes := dmSet c.nodes nid ub.2 }, [])

/-- Chain::handle_block: the opportunistic stale sweep and stats gate, then
the core best-block handling. -/
def Chain.handle_block (c : Chain) (block : Block) (nid : ChainNodeId)
    (now : Timestamp) (inow : Nat) : Chain × List FeedMessage :=
  let r1 := c.update_stale_nodes now
  let r2 := r1.1.regenerate_stats_if_necessary inow
  let r3 := r2.1.handle_block_core block nid now
  (r3.1, r1.2 ++ r2.2 ++ r3.2)

/-- The finalized-block tail of Chain::update_node: runs for every payload
variant that did not return early; a finalized candidate advancing the node's
own finalized height emits a per-node delta, and additionally a chain-wide
delta when it also advances the chain's finalized height. -/
def Chain.finalized_tail (c : Chain) (nid : ChainNodeId) (payload : Payload) :
    Chain × List FeedMessage :=
  match payload.finalized_block with
  | none => (c, [])
  | some block =>
    match dmGet c.nodes nid with
    | none => (c, [])
    | some node =>
      let uf := Node.update_finalized node block
      match uf.1 with
      | none => ({ c with nodes := dmSet c.nodes nid uf.2 }, [])
      | some finalized =>
        let m1 := FeedMessage.FinalizedBlock nid finalized.height finalized.hash
        if c.finalized.height < finalized.height then
          ({ c with nodes := dmSet c.nodes nid uf.2, finalized := finalized },
           [m1, FeedMessage.BestFinalized finalized.height finalized.hash])
        else
          ({ c with nodes := dmSet c.nodes nid uf.2 }, [m1])

/-- Chain::update_node: best-block handling for any payload bearing a best
block, then the per-variant dispatch, then (unless the validator variant
returned early) the finalized-block handling. -/
def Chain.update_node (c : Chain) (nid : ChainNodeId) (payload : Payload)
    (expose_node_details : Bool) (now : Timestamp) (inow : Nat) :
    Chain × List FeedMessage :=
  let r0 :=
    match payload.best_block with
    | some block => c.handle_block block nid now inow
    | none => (c, [])
  let c0 := r0.1
  match dmGet c0.nodes nid with
  | none => r0
  | some node =>
    match payload with
    | .SystemInterval iv =>
      let uh := Node.update_hardware node iv
      let m1 := if uh.1 then [FeedMessage.Hardware nid uh.2.hardware] else []
      let us := Node.update_stats uh.2 iv
      let m2 :=
        match us.1 with
        | some v => [FeedMessage.NodeStatsUpdate nid v]
        | none => []
      let ui := Node.update_io_state us.2 iv
      let m3 :=
        match ui.1 with
        | some v => [FeedMessage.NodeIOUpdate nid v]
        | none => []
      let c1 := { c0 with nodes := dmSet c0.nodes nid ui.2 }
      let rf := Chain.finalized_tail c1 nid payload
      (rf.1, r0.2 ++ m1 ++ m2 ++ m3 ++ rf.2)
    | .AfgAuthoritySet authority_id =>
      let sv := Node.set_validator_address node authority_id
      let m1 := if sv.1 then [FeedMessage.AddedNode nid sv.2 expose_node_details] else []
      ({ c0 with nodes := dmSet c0.nodes nid sv.2 }, r0.2 ++ m1)
    | .HwBench hb =>
      let new_hwbench : NodeHwBench :=
        ⟨hb.cpu_hashrate_score, hb.memory_memcpy_score,
         hb.disk_sequential_write_score, hb.disk_random_write_score⟩
      let uw := Node.update_hwbench node new_hwbench
      let m1 :=
        if expose_node_details then [FeedMessage.AddedNode nid uw.2 expose_node_details]
        else []
      let sc1 := c0.stats_collator.update_hwbench uw.1 CounterValue.Decrement
      let sc2 := sc1.update_hwbench uw.2.hwbench CounterValue.Increment
      let c1 := { c0 with nodes := dmSet c0.nodes nid uw.2, stats_collator := sc2 }
      let rf := Chain.finalized_tail c1 nid payload
      (rf.1, r0.2 ++ m1 ++ rf.2)
    | _ =>
      let rf := Chain.finalized_tail c0 nid payload
      (rf.1, r0.2 ++ rf.2)

/-- An admission-sequence step: one add_node or remove_node call. -/
inductive ChainOp where
  | addOp (n : Node)
  | removeOp (id : ChainNodeId)

/-- Apply one admission step, discarding the returned value. -/
def Chain.apply_op (c : Chain) : ChainOp → Chain
  | .addOp n => (c.add_node n).2
  | .removeOp i => (c.remove_node i).2

/-- Apply an admission sequence from left to right. -/
def Chain.apply_ops (c : Chain) : List ChainOp → Chain
  | [] => c
  | op :: t => (c.apply_op op).apply_ops t

/-- Maximum best height among held non-stale nodes, zero if none. -/
def maxFreshHeight : List (Option Node) → Nat
  | [] => 0
  | none :: t => maxFreshHeight t
  | some nd :: t =>
    if nd.stale then maxFreshHeight t else max nd.best.height (maxFreshHeight t)

/-- Occurrence lists whose counts are strictly positive: every counter state
reachable by balanced folds. -/
def wfCounts {α : Type} (l : List (α × Nat)) : Prop := ∀ p ∈ l, 0 < p.2

/-- The concrete node detail record used in witnesses. -/
def wDetails : NodeDetails := { chain := "alice", name := "n0", validator := none }

/-- The concrete node used in witnesses and counterexamples. -/
def wNode : Node :=
  { details := { chain := "alice", name := "n0", validator := none }
    best := Block.zero
    best_timestamp := 0
    finalized := Block.zero
    stale := false
    hwbench := none
    hardware := 0
    node_stats := 0
    io_state := 0 }

/-- A chain holding one node, with best height 5 set at instant 1000. -/
def wChain2 : Chain :=
  { Chain.new 0 10 0 with
      nodes := [some wNode], best := ⟨5, 55⟩, timestamp := some 1000 }

/-- A chain whose collator holds one detail but whose published snapshot is
still empty. -/
def wChain6 : Chain :=
  { Chain.new 0 5 0 with stats_collator := ⟨[(wDetails, 1)], []⟩ }

/-- The chain built by admitting one node into a fresh chain and letting it
report block height 1 at time 0. -/
def wChain3 : Chain :=
  (((Chain.new 0 10 0).add_node wNode).2.handle_block ⟨1, 7⟩ 0 0 0).1

/-- A stale chain: best height 5 recorded at instant 0, one silent node. -/
def wStaleChain : Chain :=
  { Chain.new 0 10 0 with
      nodes := [some wNode], best := ⟨5, 55⟩, timestamp := some 0 }

/-- The stale chain with its timestamp moved inside the threshold window. -/
def wFreshChain : Chain := { wStaleChain with timestamp := some 150000 }

/- Helper lemmas about the slot collection. -/

theorem dmLen_dmAdd (n : Node) (l : List (Option Node)) :
    dmLen (dmAdd n l).2 = dmLen l + 1 := by
  induction l with
  | nil => rfl
  | cons x t ih =>
    cases x with
    | none => rfl
    | some m => simp [dmAdd, dmLen, ih]

theorem dmLen_dmRemove_le (l : List (Option Node)) (i : Nat) :
    dmLen (dmRemove l i).2 ≤ dmLen l := by
  induction l generalizing i with
  | nil => simp [dmRemove]
  | cons x t ih =>
    cases i with
    | zero =>
      cases x with
      | none => simp [dmRemove, dmLen]
      | some m => simp [dmRemove, dmLen]
    | succ j =>
      cases x with
      | none => simpa [dmRemove, dmLen] using ih j
      | some m => simpa [dmRemove, dmLen] using ih j

theorem dmRemove_absent (l : List (Option Node)) (i : Nat)
    (h : dmGet l i = none) : dmRemove l i = (none, l) := by
  induction l generalizing i with
  | nil => rfl
  | cons x t ih =>
    cases i with
    | zero =>
      cases x with
      | none => rfl
      | some m => simp [dmGet] at h
    | succ j =>
      have := ih j (by simpa [dmGet] using h)
      simp [dmRemove, this]

theorem dmGet_dmRemove_self (l : List (Option Node)) (i : Nat) :
    dmGet (dmRemove l i).2 i = none := by
  induction l generalizing i with
  | nil => simp [dmRemove, dmGet]
  | cons x t ih =>
    cases i with
    | zero => simp [dmRemove, dmGet]
    | succ j => simpa [dmRemove, dmGet] using ih j

theorem dmRemove_dmAdd (n : Node) (l : List (Option Node)) :
    (dmRemove (dmAdd n l).2 (dmAdd n l).1).1 = some n := by
  induction l with
  | nil => rfl
  | cons x t ih =>
    cases x with
    | none => rfl
    | some m => simpa [dmAdd, dmRemove] using ih

/- Helper lemmas about occurrence counters. -/

theorem debump_bump {α : Type} [DecidableEq α] (l : List (α × Nat)) (k : α)
    (hwf : ∀ p ∈ l, 0 < p.2) : debumpCount (bumpCount l k) k = l := by
  induction l with
  | nil => simp [bumpCount, debumpCount]
  | cons p t ih =>
    obtain ⟨k0, c⟩ := p
    by_cases hk : k0 = k
    · subst hk
      have hc : 0 < c := hwf (k0, c) (by simp)
      simp [bumpCount, debumpCount]
      omega
    · have ht : ∀ p ∈ t, 0 < p.2 := fun p hp => hwf p (by simp [hp])
      simp [bumpCount, debumpCount, hk, ih ht]

/- Helper lemmas about the stale-node scan. -/

theorem staleScan_msgs (threshold : Nat) (l : List (Option Node)) :
    ∀ idx b f ts, ∀ m ∈ (staleScan threshold idx b f ts l).msgs,
      ∃ i, m = FeedMessage.StaleNode i := by
  induction l with
  | nil => intro idx b f ts m hm; simp [staleScan] at hm
  | cons x t ih =>
    intro idx b f ts m hm
    cases x with
    | none =>
      simp only [staleScan] at hm
      exact ih (idx + 1) b f ts m hm
    | some nd =>
      rcases hu : Node.update_stale nd threshold with ⟨b1, nd2⟩
      cases b1 with
      | true =>
        have hm2 : m = FeedMessage.StaleNode idx ∨
            m ∈ (staleScan threshold (idx + 1) b f ts t).msgs := by
          simpa [staleScan, hu] using hm
        rcases hm2 with h | h
        · exact ⟨idx, h⟩
        · exact ih (idx + 1) b f ts m h
      | false =>
        have hm2 : m ∈ (staleScan threshold (idx + 1)
            (if b.height < nd2.best.height then nd2.best else b)
            (if f.height < nd2.finalized.height then nd2.finalized else f)
            (if b.height < nd2.best.height then some nd2.best_timestamp else ts) t).msgs := by
          simpa [staleScan, hu] using hm
        exact ih (idx + 1) _ _ _ m hm2

theorem update_stale_stale_flag (nd : Node) (threshold : Nat) :
    (Node.update_stale nd threshold).2.stale = (Node.update_stale nd threshold).1 := by
  by_cases h : threshold < nd.best_timestamp <;> simp [Node.update_stale, h]

theorem staleScan_best_height (threshold : Nat) (l : List (Option Node)) :
    ∀ idx (b f : Block) ts,
      (staleScan threshold idx b f ts l).best.height =
        max b.height (maxFreshHeight (staleScan threshold idx b f ts l).nodes) := by
  induction l with
  | nil => intro idx b f ts; simp [staleScan, maxFreshHeight]
  | cons x t ih =>
    intro idx b f ts
    cases x with
    | none => simpa only [staleScan] using ih (idx + 1) b f ts
    | some nd =>
      rcases hu : Node.update_stale nd threshold with ⟨b1, nd2⟩
      have hflag : nd2.stale = b1 := by
        have h2 := update_stale_stale_flag nd threshold
        rw [hu] at h2
        exact h2
      cases b1 with
      | true =>
        simp only [staleScan, hu]
        simp only [maxFreshHeight, hflag, if_true]
        exact ih (idx + 1) b f ts
      | false =>
        simp only [staleScan, hu]
        by_cases hlt : b.height < nd2.best.height
        · simp only [if_pos hlt]
          rw [ih]
          simp only [maxFreshHeight, hflag, Bool.false_eq_true, if_false]
          omega
        · simp only [if_neg hlt]
          rw [ih]
          simp only [maxFreshHeight, hflag, Bool.false_eq_true, if_false]
          omega

theorem dmRemove_fst (l : List (Option Node)) (i : Nat) :
    (dmRemove l i).1 = dmGet l i := by
  induction l generalizing i with
  | nil => rfl
  | cons x t ih =>
    cases i with
    | zero => rfl
    | succ j => simpa [dmRemove, dmGet] using ih j

/- Quota preservation for admission sequences. -/

theorem apply_op_max (c : Chain) (op : ChainOp) :
    (c.apply_op op).max_nodes = c.max_nodes := by
  cases op with
  | addOp n =>
    by_cases hq : c.is_overquota <;> simp [Chain.apply_op, Chain.add_node, hq]
  | removeOp i =>
    rcases hr : dmRemove c.nodes i with ⟨x, l2⟩
    cases x <;> simp [Chain.apply_op, Chain.remove_node, hr]

theorem apply_op_quota (c : Chain) (op : ChainOp)
    (h : c.node_count ≤ c.max_nodes) :
    (c.apply_op op).node_count ≤ (c.apply_op op).max_nodes := by
  cases op with
  | addOp n =>
    by_cases hq : c.is_overquota
    · simpa [Chain.apply_op, Chain.add_node, hq] using h
    · have hlt : dmLen c.nodes < c.max_nodes := by
        simp [Chain.is_overquota] at hq
        omega
      simp [Chain.apply_op, Chain.add_node, hq, Chain.node_count, dmLen_dmAdd]
      omega
  | removeOp i =>
    rcases hr : dmRemove c.nodes i with ⟨x, l2⟩
    cases x with
    | none => simpa [Chain.apply_op, Chain.remove_node, hr] using h
    | some nd =>
      have hle : dmLen l2 ≤ dmLen c.nodes := by
        have h2 := dmLen_dmRemove_le c.nodes i
        rw [hr] at h2
        exact h2
      simp only [Chain.apply_op, Chain.remove_node, hr, Chain.node_count] at h ⊢
      omega

theorem apply_ops_quota (ops : List ChainOp) (c : Chain)
    (h : c.node_count ≤ c.max_nodes) :
    (c.apply_ops ops).node_count ≤ (c.apply_ops ops).max_nodes := by
  induction ops generalizing c with
  | nil => exact h
  | cons op t ih =>
    simp only [Chain.apply_ops]
    exact ih _ (apply_op_quota c op h)

theorem apply_ops_max (ops : List ChainOp) (c : Chain) :
    (c.apply_ops ops).max_nodes = c.max_nodes := by
  induction ops generalizing c with
  | nil => rfl
  | cons op t ih =>
    simp only [Chain.apply_ops]
    rw [ih, apply_op_max]

/-- C1: for every sequence of add_node and remove_node calls starting from a
freshly constructed Chain the node count never exceeds max_nodes, and an
add_node call made while node_count is at least max_nodes returns Overquota
and leaves every chain field (node collection, label tracker, stats collator
and all the rest) unchanged. -/
theorem C1_quota_invariant (g m created : Nat) (ops : List ChainOp)
    (c : Chain) (n : Node) :
    ((Chain.new g m created).apply_ops ops).node_count ≤ m ∧
    (c.is_overquota = true → c.add_node n = (AddNodeResult.Overquota, c)) := by
  constructor
  · have h0 : (Chain.new g m created).node_count ≤ (Chain.new g m created).max_nodes := by
      simp [Chain.new, Chain.node_count, dmLen]
    have h1 := apply_ops_quota ops (Chain.new g m created) h0
    have h2 := apply_ops_max ops (Chain.new g m created)
    rw [h2] at h1
    exact h1
  · intro h
    simp [Chain.add_node, h]

/-- Witness for C1: the bound holds for the empty sequence at quota 1, and a
chain constructed with quota 0 rejects the very first admission unchanged. -/
theorem C1_quota_invariant_witness :
    ((Chain.new 0 1 0).apply_ops []).node_count ≤ 1 ∧
    (Chain.new 0 0 0).add_node wNode = (AddNodeResult.Overquota, Chain.new 0 0 0) :=
  ⟨(C1_quota_invariant 0 1 0 [] (Chain.new 0 0 0) wNode).1,
   (C1_quota_invariant 0 1 0 [] (Chain.new 0 0 0) wNode).2 (by decide)⟩

/-- C8: removing an absent id returns chain_renamed = false and leaves every
chain field unchanged; consequently removing the same id twice is a no-op
the second time. -/
theorem C8_remove_absent (c : Chain) (i : ChainNodeId)
    (habs : dmGet c.nodes i = none) :
    c.remove_node i = (⟨false⟩, c) ∧
    ∀ c2 : Chain, ∀ j : ChainNodeId,
      ((c2.remove_node j).2).remove_node j = (⟨false⟩, (c2.remove_node j).2) := by
  have key : ∀ c3 : Chain, ∀ k, dmGet c3.nodes k = none →
      c3.remove_node k = (⟨false⟩, c3) := by
    intro c3 k hk
    have h2 := dmRemove_absent c3.nodes k hk
    simp [Chain.remove_node, h2]
  refine ⟨key c i habs, ?_⟩
  intro c2 j
  apply key
  rcases hr : dmRemove c2.nodes j with ⟨x, l2⟩
  cases x with
  | none =>
    have hg : dmGet c2.nodes j = none := by
      have h2 := dmRemove_fst c2.nodes j
      rw [hr] at h2
      exact h2.symm
    simp [Chain.remove_node, hr, hg]
  | some nd =>
    have hg : dmGet l2 j = none := by
      have h2 := dmGet_dmRemove_self c2.nodes j
      rw [hr] at h2
      exact h2
    simp [Chain.remove_node, hr, hg]

/-- Witness for C8: removing id 3 from a fresh empty chain changes nothing. -/
theorem C8_remove_absent_witness :
    (Chain.new 0 5 0).remove_node 3 = (⟨false⟩, Chain.new 0 5 0) :=
  (C8_remove_absent (Chain.new 0 5 0) 3 rfl).1

/-- C4 counterexample: the staleness-threshold subtraction (chain.rs line 304)
is not saturating: at wall-clock time 0 the unchecked u64 subtraction wraps
around instead of saturating to zero, so the claim that every duration
subtraction in the core is saturating fails. -/
theorem C4_saturating_cex : stale_threshold 0 ≠ 0 - STALE_TIMEOUT := by decide

/-- C4 amended: the block-time and propagation-time subtractions are
saturating (they are embedded as truncated Nat subtraction of u64 values,
exactly Rust's saturating_sub); the staleness-threshold computation is an
unchecked u64 subtraction that agrees with saturating subtraction only when
the wall-clock time is at least the 2-minute timeout. -/
theorem C4_saturating_amended (now : Nat)
    (h1 : STALE_TIMEOUT ≤ now) (h2 : now < 2 ^ 64) :
    stale_threshold now = now - STALE_TIMEOUT := by
  have e : (2 : Nat) ^ 64 = 18446744073709551616 := by norm_num
  have h2b : now < 18446744073709551616 := by
    rw [e] at h2
    exact h2
  have h1b : (120000 : Nat) ≤ now := by
    simpa [STALE_TIMEOUT] using h1
  show (now + (2 ^ 64 - (2 * 60 * 1000) % 2 ^ 64)) % 2 ^ 64 = now - (2 * 60 * 1000)
  have em : (2 * 60 * 1000) % 2 ^ 64 = 2 * 60 * 1000 := Nat.mod_eq_of_lt (by norm_num)
  rw [em]
  have e2 : now + (2 ^ 64 - 2 * 60 * 1000) = (now - 2 * 60 * 1000) + 2 ^ 64 := by
    have hb : (2 * 60 * 1000 : Nat) ≤ 2 ^ 64 := by norm_num
    omega
  rw [e2, Nat.add_mod_right]
  exact Nat.mod_eq_of_lt (lt_of_le_of_lt (Nat.sub_le _ _) h2)

/-- Witness for C4 amended: at exactly the 2-minute mark the threshold is 0. -/
theorem C4_saturating_amended_witness :
    stale_threshold 120000 = 120000 - STALE_TIMEOUT :=
  C4_saturating_amended 120000 (by decide) (by decide)

/-- C6: stats regeneration is throttled to one attempt per 5-second interval
measured from the last attempt; when a regeneration occurs the cached
snapshot is replaced and a chain-wide stats delta emitted exactly when the
freshly generated snapshot differs from the published one, and an identical
recomputation emits nothing and leaves the cached snapshot unchanged. -/
theorem C6_stats_gate (c : Chain) (inow : Nat) :
    (inow - c.stats_last_regenerated < STATS_UPDATE_INTERVAL →
      c.regenerate_stats_if_necessary inow = (c, [])) ∧
    (STATS_UPDATE_INTERVAL ≤ inow - c.stats_last_regenerated →
      (c.stats_collator.generate = c.stats →
        c.regenerate_stats_if_necessary inow =
          ({ c with stats_last_regenerated := inow }, [])) ∧
      (c.stats_collator.generate ≠ c.stats →
        c.regenerate_stats_if_necessary inow =
          ({ c with stats_last_regenerated := inow,
                    stats := c.stats_collator.generate },
           [FeedMessage.ChainStatsUpdate c.stats_collator.generate])) ∧
      (∀ inow2, inow2 - inow < STATS_UPDATE_INTERVAL →
        ((c.regenerate_stats_if_necessary inow).1).regenerate_stats_if_necessary inow2 =
          ((c.regenerate_stats_if_necessary inow).1, []))) := by
  constructor
  · intro h
    simp [Chain.regenerate_stats_if_necessary, h]
  · intro h
    have hnl : ¬ (inow - c.stats_last_regenerated < STATS_UPDATE_INTERVAL) := by omega
    refine ⟨?_, ?_, ?_⟩
    · intro he
      simp [Chain.regenerate_stats_if_necessary, hnl, he]
    · intro hne
      simp [Chain.regenerate_stats_if_necessary, hnl, hne]
    · intro inow2 hlt
      have hlast : ((c.regenerate_stats_if_necessary inow).1).stats_last_regenerated
          = inow := by
        by_cases he : c.stats_collator.generate = c.stats
        · simp [Chain.regenerate_stats_if_necessary, hnl, he]
        · simp [Chain.regenerate_stats_if_necessary, hnl, he]
      generalize hg : (c.regenerate_stats_if_necessary inow).1 = c1 at hlast ⊢
      have hcond : inow2 - c1.stats_last_regenerated < STATS_UPDATE_INTERVAL := by
        rw [hlast]
        exact hlt
      simp [Chain.regenerate_stats_if_necessary, hcond]

/-- Witness for C6: after the interval, a changed snapshot emits one delta. -/
theorem C6_stats_gate_witness :
    wChain6.regenerate_stats_if_necessary 6000 =
      ({ wChain6 with stats_last_regenerated := 6000,
                      stats := wChain6.stats_collator.generate },
       [FeedMessage.ChainStatsUpdate wChain6.stats_collator.generate]) :=
  ((C6_stats_gate wChain6 6000).2 (by decide)).2.1 (by decide)

/-- C2: during best-block handling, for a node whose reported block strictly
advances that node's own stored best: a height above the chain best yields
propagation time 0 (alongside the chain-wide best-block delta); a height
equal to the chain best with a recorded chain timestamp yields propagation
now minus that timestamp (saturating), so a node reporting the current best
height at time ts + d after the best was set at ts gets propagation d; a
height behind the chain best, or an equal height with no recorded timestamp,
leaves the propagation time unreported. -/
theorem C2_propagation_time (c : Chain) (block : Block) (nid : ChainNodeId)
    (now : Nat) (node : Node)
    (hget : dmGet c.nodes nid = some node)
    (hadv : node.best.height < block.height) :
    (∀ ts, c.best.height < block.height → c.timestamp = some ts →
      (c.handle_block_core block nid now).2 =
        [FeedMessage.BestBlock block.height now
           (some ((c.block_times.push (now - ts)).average)),
         FeedMessage.ImportedBlock nid ⟨now, some 0⟩]) ∧
    (c.best.height < block.height → c.timestamp = none →
      (c.handle_block_core block nid now).2 =
        [FeedMessage.BestBlock block.height now c.average_block_time,
         FeedMessage.ImportedBlock nid ⟨now, some 0⟩]) ∧
    (∀ ts, block.height = c.best.height → c.timestamp = some ts →
      (c.handle_block_core block nid now).2 =
        [FeedMessage.ImportedBlock nid ⟨now, some (now - ts)⟩]) ∧
    (∀ ts d, block.height = c.best.height → c.timestamp = some ts → now = ts + d →
      (c.handle_block_core block nid now).2 =
        [FeedMessage.ImportedBlock nid ⟨now, some d⟩]) ∧
    (block.height = c.best.height → c.timestamp = none →
      (c.handle_block_core block nid now).2 =
        [FeedMessage.ImportedBlock nid ⟨now, none⟩]) ∧
    (block.height < c.best.height →
      (c.handle_block_core block nid now).2 =
        [FeedMessage.ImportedBlock nid ⟨now, none⟩]) := by
  have hub : Node.update_block node block =
      (true, { node with best := block, stale := false }) := by
    simp [Node.update_block, hadv]
  refine ⟨?_, ?_, ?_, ?_, ?_, ?_⟩
  · intro ts h hts
    simp [Chain.handle_block_core, hget, hub, h, hts, Node.update_details]
  · intro h hts
    simp [Chain.handle_block_core, hget, hub, h, hts, Node.update_details]
  · intro ts heq hts
    have hlt1 : ¬ c.best.height < block.height := by omega
    simp [Chain.handle_block_core, hget, hub, hlt1, heq, hts, Node.update_details]
  · intro ts d heq hts hnow
    have hlt1 : ¬ c.best.height < block.height := by omega
    subst hnow
    simp [Chain.handle_block_core, hget, hub, hlt1, heq, hts, Node.update_details]
  · intro heq hts
    have hlt1 : ¬ c.best.height < block.height := by omega
    simp [Chain.handle_block_core, hget, hub, hlt1, heq, hts, Node.update_details]
  · intro h
    have hlt1 : ¬ c.best.height < block.height := by omega
    have hne : ¬ block.height = c.best.height := by omega
    simp [Chain.handle_block_core, hget, hub, hlt1, hne, Node.update_details]

/-- Witness for C2: a node reports the current best height 5 at time 1250,
250 ms after the best was set at 1000; its propagation time is 250. -/
theorem C2_propagation_time_witness :
    (wChain2.handle_block_core ⟨5, 77⟩ 0 1250).2 =
      [FeedMessage.ImportedBlock 0 ⟨1250, some 250⟩] :=
  (C2_propagation_time wChain2 ⟨5, 77⟩ 0 1250 wNode rfl (by decide)).2.2.2.1
    1000 250 rfl rfl rfl

/-- C7: a validator-identity payload dispatched to a present node sets the
node's validator id, emits a full node-snapshot delta exactly when the id
changed, and performs no finalized-block handling: the chain's finalized
block is unchanged and no per-node or chain-wide finalized delta is ever
emitted for this variant. -/
theorem C7_validator_update (c : Chain) (nid : ChainNodeId) (a : String)
    (expose : Bool) (now inow : Nat) (node : Node)
    (hget : dmGet c.nodes nid = some node) :
    c.update_node nid (Payload.AfgAuthoritySet a) expose now inow =
      ({ c with nodes := dmSet c.nodes nid (Node.set_validator_address node a).2 },
       if (Node.set_validator_address node a).1 then
         [FeedMessage.AddedNode nid (Node.set_validator_address node a).2 expose]
       else []) ∧
    (Node.set_validator_address node a).2.details.validator = some a ∧
    ((Node.set_validator_address node a).1 = true ↔
      ¬ node.details.validator = some a) ∧
    (c.update_node nid (Payload.AfgAuthoritySet a) expose now inow).1.finalized
      = c.finalized ∧
    (∀ m ∈ (c.update_node nid (Payload.AfgAuthoritySet a) expose now inow).2,
      (∀ i h hs, ¬ m = FeedMessage.FinalizedBlock i h hs) ∧
      (∀ h hs, ¬ m = FeedMessage.BestFinalized h hs)) := by
  have key : c.update_node nid (Payload.AfgAuthoritySet a) expose now inow =
      ({ c with nodes := dmSet c.nodes nid (Node.set_validator_address node a).2 },
       if (Node.set_validator_address node a).1 then
         [FeedMessage.AddedNode nid (Node.set_validator_address node a).2 expose]
       else []) := by
    simp [Chain.update_node, Payload.best_block, hget]
  refine ⟨key, ?_, ?_, ?_, ?_⟩
  · by_cases hv : node.details.validator = some a <;>
      simp [Node.set_validator_address, hv]
  · by_cases hv : node.details.validator = some a <;>
      simp [Node.set_validator_address, hv]
  · rw [key]
  · rw [key]
    by_cases hb : (Node.set_validator_address node a).1 <;> simp [hb]

/-- Witness for C7 at a concrete chain: the validator id changes from none
to "v1". -/
theorem C7_validator_update_witness :
    wChain2.update_node 0 (Payload.AfgAuthoritySet "v1") true 5 5 =
      ({ wChain2 with
          nodes := dmSet wChain2.nodes 0 (Node.set_validator_address wNode "v1").2 },
       if (Node.set_validator_address wNode "v1").1 then
         [FeedMessage.AddedNode 0 (Node.set_validator_address wNode "v1").2 true]
       else []) :=
  (C7_validator_update wChain2 0 "v1" true 5 5 wNode rfl).1

/-- The staleness threshold agrees with saturating subtraction whenever the
wall-clock time is at least the 2-minute timeout (shared helper). -/
theorem stale_threshold_eq (now : Nat)
    (h1 : STALE_TIMEOUT ≤ now) (h2 : now < 2 ^ 64) :
    stale_threshold now = now - STALE_TIMEOUT := by
  have e : (2 : Nat) ^ 64 = 18446744073709551616 := by norm_num
  show (now + (2 ^ 64 - (2 * 60 * 1000) % 2 ^ 64)) % 2 ^ 64 = now - (2 * 60 * 1000)
  have em : (2 * 60 * 1000) % 2 ^ 64 = 2 * 60 * 1000 := Nat.mod_eq_of_lt (by norm_num)
  rw [em]
  have h1b : (120000 : Nat) ≤ now := by
    simpa [STALE_TIMEOUT] using h1
  have e2 : now + (2 ^ 64 - 2 * 60 * 1000) = (now - 2 * 60 * 1000) + 2 ^ 64 := by
    have hb : (2 * 60 * 1000 : Nat) ≤ 2 ^ 64 := by norm_num
    omega
  rw [e2, Nat.add_mod_right]
  exact Nat.mod_eq_of_lt (lt_of_le_of_lt (Nat.sub_le _ _) h2)

/-- C3 counterexample: remove_node does not recompute the chain best: after
removing the only node, which had reported the current best height 1, the
chain still records best height 1 while the maximum best height among held
non-stale nodes is 0. -/
theorem C3_best_invariant_cex :
    ¬ ((wChain3.remove_node 0).2.best.height =
        maxFreshHeight (wChain3.remove_node 0).2.nodes) := by decide

/-- C3 amended: the claimed equality is a postcondition of the staleness
sweep, not of removal: whenever the sweep fires and replaces the chain head,
the new best height equals the maximum best height among the held non-stale
nodes (zero if none remain). remove_node leaves the best block untouched, so
immediately after removing the node that reported the current best the
equality can fail. -/
theorem C3_best_after_sweep (c : Chain) (now : Nat) (ts : Nat)
    (hts : c.timestamp = some ts)
    (hfire : ¬ stale_threshold now < ts)
    (hnz : c.best.height ≠ 0 ∨ c.finalized.height ≠ 0) :
    (c.update_stale_nodes now).1.best.height =
      maxFreshHeight (c.update_stale_nodes now).1.nodes := by
  simp only [Chain.update_stale_nodes, hts, if_neg hfire, if_pos hnz]
  have h := staleScan_best_height (stale_threshold now) c.nodes 0 Block.zero Block.zero none
  simpa [Block.zero, Nat.zero_max] using h

/-- Witness for C3 amended: the sweep firing at time 300000 restores the
equality between the chain best and the fresh-node maximum. -/
theorem C3_best_after_sweep_witness :
    (wStaleChain.update_stale_nodes 300000).1.best.height =
      maxFreshHeight (wStaleChain.update_stale_nodes 300000).1.nodes :=
  C3_best_after_sweep wStaleChain 300000 0 rfl (by decide) (by decide)

/-- C5 counterexample: at now = 100 the recorded timestamp 0 is within the
2-minute threshold (100 - 0 < 120000), yet the sweep fires and mutates and
emits, because the unchecked threshold subtraction wrapped below zero. -/
theorem C5_stale_sweep_cex :
    100 - 0 < STALE_TIMEOUT ∧
      ¬ wStaleChain.update_stale_nodes 100 = (wStaleChain, []) := by decide

/-- C5 amended: provided the wall-clock time is at least the 2-minute timeout
(otherwise the unchecked threshold subtraction wraps, as the counterexample
shows), the sweep mutates nothing and emits nothing when no timestamp is
recorded or when now minus the timestamp is within the threshold; when it
fires it marks stale nodes, emitting only per-node stale deltas from the
scan; with both chain heights already zero nothing else changes and no
chain-wide delta is emitted; with a nonzero height the chain adopts the
recomputed fresh-node maxima and timestamp, resets the rolling window, and
emits both chain-wide deltas even when the new state is zero. -/
theorem C5_stale_sweep (c : Chain) (now : Nat)
    (h1 : STALE_TIMEOUT ≤ now) (h2 : now < 2 ^ 64) :
    (c.timestamp = none → c.update_stale_nodes now = (c, [])) ∧
    (∀ ts, c.timestamp = some ts → now - ts < STALE_TIMEOUT →
      c.update_stale_nodes now = (c, [])) ∧
    (∀ ts, c.timestamp = some ts → STALE_TIMEOUT ≤ now - ts →
      (∀ m ∈ (staleScan (stale_threshold now) 0 Block.zero Block.zero none c.nodes).msgs,
        ∃ i, m = FeedMessage.StaleNode i) ∧
      (c.best.height = 0 → c.finalized.height = 0 →
        c.update_stale_nodes now =
          ({ c with nodes :=
              (staleScan (stale_threshold now) 0 Block.zero Block.zero none c.nodes).nodes },
           (staleScan (stale_threshold now) 0 Block.zero Block.zero none c.nodes).msgs)) ∧
      (¬ (c.best.height = 0 ∧ c.finalized.height = 0) →
        c.update_stale_nodes now =
          ({ c with
              nodes :=
                (staleScan (stale_threshold now) 0 Block.zero Block.zero none c.nodes).nodes,
              best :=
                (staleScan (stale_threshold now) 0 Block.zero Block.zero none c.nodes).best,
              finalized :=
                (staleScan (stale_threshold now) 0 Block.zero Block.zero none c.nodes).finalized,
              block_times := c.block_times.reset,
              timestamp :=
                (staleScan (stale_threshold now) 0 Block.zero Block.zero none c.nodes).timestamp },
           (staleScan (stale_threshold now) 0 Block.zero Block.zero none c.nodes).msgs ++
             [FeedMessage.BestBlock
                (staleScan (stale_threshold now) 0 Block.zero Block.zero none c.nodes).best.height
                ((staleScan (stale_threshold now) 0 Block.zero Block.zero none
                    c.nodes).timestamp.getD now)
                none,
              FeedMessage.BestFinalized
                (staleScan (stale_threshold now) 0 Block.zero Block.zero none
                    c.nodes).finalized.height
                (staleScan (stale_threshold now) 0 Block.zero Block.zero none
                    c.nodes).finalized.hash]))) := by
  have hthr := stale_threshold_eq now h1 h2
  have hS : STALE_TIMEOUT = 120000 := by norm_num [STALE_TIMEOUT]
  rw [hS] at h1
  refine ⟨?_, ?_, ?_⟩
  · intro h
    simp [Chain.update_stale_nodes, h]
  · intro ts hts hin
    rw [hS] at hin
    have hg : stale_threshold now < ts := by
      rw [hthr, hS]
      omega
    simp [Chain.update_stale_nodes, hts, hg]
  · intro ts hts hout
    rw [hS] at hout
    have hg : ¬ stale_threshold now < ts := by
      rw [hthr, hS]
      omega
    refine ⟨staleScan_msgs (stale_threshold now) c.nodes 0 Block.zero Block.zero none, ?_, ?_⟩
    · intro hb hf
      have hcond : ¬ (c.best.height ≠ 0 ∨ c.finalized.height ≠ 0) := by
        simp [hb, hf]
      simp [Chain.update_stale_nodes, hts, hg, hcond]
    · intro hnz
      have hcond : c.best.height ≠ 0 ∨ c.finalized.height ≠ 0 := by
        by_contra hcon
        push_neg at hcon
        exact hnz ⟨hcon.1, hcon.2⟩
      simp [Chain.update_stale_nodes, hts, hg, hcond]

/-- Witness for C5 amended: at now = 200000 with timestamp 150000 the sweep
is within the threshold and does nothing. -/
theorem C5_stale_sweep_witness :
    wFreshChain.update_stale_nodes 200000 = (wFreshChain, []) :=
  ((C5_stale_sweep wFreshChain 200000 (by decide) (by decide)).2.1)
    150000 rfl (by decide)

/-- C10: when the sweep fires and replaces the chain head it resets the
rolling block-time window and its chain-wide best-block delta reports no
average, yet the stored average_block_time field (the value the accessor
keeps returning) is left unchanged. -/
theorem C10_sweep_average (c : Chain) (now : Nat) (ts : Nat)
    (hts : c.timestamp = some ts)
    (hfire : ¬ stale_threshold now < ts)
    (hnz : c.best.height ≠ 0 ∨ c.finalized.height ≠ 0) :
    (c.update_stale_nodes now).1.average_block_time = c.average_block_time ∧
    (c.update_stale_nodes now).1.block_times = c.block_times.reset ∧
    (∀ h t a, FeedMessage.BestBlock h t a ∈ (c.update_stale_nodes now).2 →
      a = none) := by
  refine ⟨?_, ?_, ?_⟩
  · simp [Chain.update_stale_nodes, hts, hfire, hnz]
  · simp [Chain.update_stale_nodes, hts, hfire, hnz]
  · intro h t a hm
    simp only [Chain.update_stale_nodes, hts, if_neg hfire, if_pos hnz] at hm
    rcases List.mem_append.mp hm with hm1 | hm2
    · rcases staleScan_msgs (stale_threshold now) c.nodes 0 Block.zero Block.zero none
        _ hm1 with ⟨i, hi⟩
      simp at hi
    · simp at hm2
      exact hm2.2.2

/-- Witness for C10: the firing sweep keeps the stored average unchanged. -/
theorem C10_sweep_average_witness :
    (wStaleChain.update_stale_nodes 300000).1.average_block_time =
      wStaleChain.average_block_time :=
  (C10_sweep_average wStaleChain 300000 0 rfl (by decide) (by decide)).1

/-- C9: on a chain holding no other nodes, add_node immediately followed by
remove_node of the returned id restores the majority-label tracker and the
stats collator to their pre-add values. add_node folds the detail in with no
benchmark and remove_node folds the detail and any stored benchmark out, so
this relies on the admitted node carrying no stored benchmark, which the
specification guarantees at admission ("no benchmark yet"); counter states
are reachable ones, whose counts are strictly positive. -/
theorem C9_add_remove_restores (c : Chain) (n : Node) (i : ChainNodeId) (r : Bool)
    (hempty : dmLen c.nodes = 0)
    (hbench : n.hwbench = none)
    (hwf1 : wfCounts c.labels.counts)
    (hwf2 : wfCounts c.stats_collator.detail_counts)
    (hadd : (c.add_node n).1 = AddNodeResult.Added i r) :
    ((c.add_node n).2.remove_node i).2.labels = c.labels ∧
    ((c.add_node n).2.remove_node i).2.stats_collator = c.stats_collator := by
  by_cases hq : c.is_overquota
  · simp [Chain.add_node, hq] at hadd
  · have hi : (dmAdd n c.nodes).1 = i := by
      simp [Chain.add_node, hq] at hadd
      exact hadd.1
    have hadd2 : (c.add_node n).2 =
        { c with
            stats_collator :=
              ChainStatsCollator.add_or_remove_node c.stats_collator n.details none
                CounterValue.Increment,
            labels := (MostSeen.insert c.labels n.details.chain).2,
            nodes := (dmAdd n c.nodes).2 } := by
      simp [Chain.add_node, hq]
    rcases hr : dmRemove (dmAdd n c.nodes).2 i with ⟨x, l2⟩
    have hx : x = some n := by
      have h2 := dmRemove_dmAdd n c.nodes
      rw [hi, hr] at h2
      exact h2
    subst hx
    rw [hadd2]
    constructor
    · simp only [Chain.remove_node, hr, MostSeen.insert, MostSeen.remove]
      rw [debump_bump c.labels.counts n.details.chain hwf1]
    · simp only [Chain.remove_node, hr, ChainStatsCollator.add_or_remove_node,
        ChainStatsCollator.update_hwbench, hbench, applyCount]
      rw [debump_bump c.stats_collator.detail_counts n.details hwf2]

/-- Witness for C9: adding wNode to a fresh chain and removing it restores
the empty label tracker and the empty collator. -/
theorem C9_add_remove_restores_witness :
    (((Chain.new 0 5 0).add_node wNode).2.remove_node 0).2.labels =
      (Chain.new 0 5 0).labels ∧
    (((Chain.new 0 5 0).add_node wNode).2.remove_node 0).2.stats_collator =
      (Chain.new 0 5 0).stats_collator :=
  C9_add_remove_restores (Chain.new 0 5 0) wNode 0 true rfl rfl
    (by simp [wfCounts, Chain.new, MostSeen.default])
    (by simp [wfCounts, Chain.new])
    (by decide)
